import Mathlib

/-!
Verification development for the tempo-scheduler recommendation pipeline
(`src/index.ts`).  The pipeline is embedded shallowly:

* `Json` models the untyped JavaScript values produced by `JSON.parse`;
  `Json.parse` models `JSON.parse` on the response text.
* `parseSuggestions` models the parse-and-validate block of
  `getSchedulingSuggestions` (lines 176-188 of `src/index.ts`).
* `buildContext` / `buildRequest` model the oracle request construction
  (lines 97-170).
* `executeCalendarActions` models the reconciliation loop (lines 215-281),
  with the Google-calendar `insert` capability abstracted as a
  per-recommendation success/fault function.
* `runMain` models the control flow of `main` (lines 283-333) with the
  external collaborators abstracted into an `Env`, recording the trace of
  external calls (calendar read, oracle call, calendar writes).
-/

/-- Untyped JSON/JavaScript runtime values.  JavaScript `undefined` is not a
`Json` value; it is modelled as `Option.none` where property access can miss.
Numbers are kept as their raw source text: no claim depends on numeric
arithmetic, and this avoids floating-point semantics. -/
inductive Json where
  | null : Json
  | bool : Bool → Json
  | num : String → Json
  | str : String → Json
  | arr : List Json → Json
  | obj : List (String × Json) → Json
  deriving Repr

/-- Property access `v[key]` on a JavaScript value: yields the last binding
of the key when `v` is an object that has it (last-wins, as `JSON.parse`
keeps the last duplicate key), and `undefined` (`none`) otherwise. -/
def Json.get? (v : Json) (key : String) : Option Json :=
  match v with
  | .obj fields => go fields none
  | _ => none
where
  go : List (String × Json) → Option Json → Option Json
    | [], acc => acc
    | (k, x) :: rest, acc => go rest (if k = key then some x else acc)

/-- JavaScript falsiness of a defined value (`!v` is true): `null`, `false`,
`0`, the empty string.  (`undefined`, also falsy, is the `none` case at use
sites.) -/
def Json.falsy : Json → Bool
  | .null => true
  | .bool b => !b
  | .num r => r = "0" || r = "-0"
  | .str s => s = ""
  | _ => false

/-- Is the value an array? (`Array.isArray`). -/
def Json.isArr : Json → Bool
  | .arr _ => true
  | _ => false

/-- String interpolation of a possibly-undefined value, as in a JavaScript
template literal: `undefined` prints as "undefined", `null` as "null".
(Arrays and objects do not occur at the interpolation sites the claims
exercise; they are given their generic object rendering.) -/
def jsTemplate : Option Json → String
  | none => "undefined"
  | some .null => "null"
  | some (.bool true) => "true"
  | some (.bool false) => "false"
  | some (.num r) => r
  | some (.str s) => s
  | some (.arr _) => ""
  | some (.obj _) => "[object Object]"

/-! ### A model of `JSON.parse`

A fuel-indexed recursive-descent parser over the character list of the
input.  It accepts the JSON actually exchanged by the pipeline (objects,
arrays, strings with the common escapes, numbers kept as raw text, literals)
and returns `none` on anything it cannot parse — `none` models `JSON.parse`
raising a `SyntaxError`. -/

/-- Skip JSON whitespace. -/
def skipWs : List Char → List Char
  | c :: cs => if c = ' ' ∨ c = '\n' ∨ c = '\t' ∨ c = '\r' then skipWs cs else c :: cs
  | [] => []

/-- Decode one escape character after a backslash. -/
def unescapeChar (c : Char) : Option Char :=
  if c = '"' then some '"'
  else if c = '\\' then some '\\'
  else if c = '/' then some '/'
  else if c = 'n' then some '\n'
  else if c = 't' then some '\t'
  else if c = 'r' then some '\r'
  else if c = 'b' then some (Char.ofNat 8)
  else if c = 'f' then some (Char.ofNat 12)
  else none

/-- Parse the body of a JSON string after the opening quote, returning the
decoded string and the rest of the input after the closing quote. -/
def parseStringBody : List Char → Option (String × List Char)
  | [] => none
  | c :: cs =>
    if c = '"' then some ("", cs)
    else if c = '\\' then
      match cs with
      | [] => none
      | e :: cs' =>
        match unescapeChar e with
        | none => none
        | some d =>
          match parseStringBody cs' with
          | none => none
          | some (s, rest) => some (String.singleton d ++ s, rest)
    else
      match parseStringBody cs with
      | none => none
      | some (s, rest) => some (String.singleton c ++ s, rest)

/-- Is the character part of a JSON number token? -/
def isNumChar (c : Char) : Bool :=
  c.isDigit || c = '-' || c = '+' || c = '.' || c = 'e' || c = 'E'

/-- Take the maximal run of number characters. -/
def takeNum : List Char → (List Char × List Char)
  | [] => ([], [])
  | c :: cs =>
    if isNumChar c then
      let (tok, rest) := takeNum cs
      (c :: tok, rest)
    else ([], c :: cs)

mutual

/-- Parse one JSON value. -/
def parseVal : Nat → List Char → Option (Json × List Char)
  | 0, _ => none
  | fuel + 1, cs =>
    match skipWs cs with
    | [] => none
    | c :: rest =>
      if c = '"' then
        match parseStringBody rest with
        | none => none
        | some (s, rest') => some (.str s, rest')
      else if c = '\x7b' then parseObjFields fuel rest true
      else if c = '[' then parseArrElems fuel rest true
      else if c = 't' then
        match rest with
        | 'r' :: 'u' :: 'e' :: rest' => some (.bool true, rest')
        | _ => none
      else if c = 'f' then
        match rest with
        | 'a' :: 'l' :: 's' :: 'e' :: rest' => some (.bool false, rest')
        | _ => none
      else if c = 'n' then
        match rest with
        | 'u' :: 'l' :: 'l' :: rest' => some (.null, rest')
        | _ => none
      else if c.isDigit || c = '-' then
        let (tok, rest') := takeNum (c :: rest)
        if tok.isEmpty then none else some (.num (String.mk tok), rest')
      else none

/-- Parse the elements of an array after `[`; `first` is true before the
first element. -/
def parseArrElems : Nat → List Char → Bool → Option (Json × List Char)
  | 0, _, _ => none
  | fuel + 1, cs, first =>
    match skipWs cs with
    | [] => none
    | c :: rest =>
      if c = ']' ∧ first then some (.arr [], rest)
      else
        match parseVal fuel (c :: rest) with
        | none => none
        | some (v, rest') =>
          match skipWs rest' with
          | ',' :: rest'' =>
            match parseArrElems fuel rest'' false with
            | some (.arr vs, rest''') => some (.arr (v :: vs), rest''')
            | _ => none
          | ']' :: rest'' => some (.arr [v], rest'')
          | _ => none

/-- Parse the fields of an object after an opening brace; `first` is true
before the first field. -/
def parseObjFields : Nat → List Char → Bool → Option (Json × List Char)
  | 0, _, _ => none
  | fuel + 1, cs, first =>
    match skipWs cs with
    | [] => none
    | c :: rest =>
      if c = '\x7d' ∧ first then some (.obj [], rest)
      else if c = '"' then
        match parseStringBody rest with
        | none => none
        | some (k, rest') =>
          match skipWs rest' with
          | ':' :: rest'' =>
            match parseVal fuel rest'' with
            | none => none
            | some (v, rest''') =>
              match skipWs rest''' with
              | ',' :: r4 =>
                match parseObjFields fuel r4 false with
                | some (.obj fs, r5) => some (.obj ((k, v) :: fs), r5)
                | _ => none
              | '\x7d' :: r4 => some (.obj [(k, v)], r4)
              | _ => none
          | _ => none
      else none

end

/-- Model of `JSON.parse`: parse the whole text as one JSON value, allowing
trailing whitespace only.  `none` models a thrown `SyntaxError`. -/
def Json.parse (s : String) : Option Json :=
  match parseVal (s.length + 1) s.data with
  | some (j, rest) => if (skipWs rest).isEmpty then some j else none
  | none => none

example : Json.parse "\x7b\"a\": [1, \"x\"]\x7d" =
    some (.obj [("a", .arr [.num "1", .str "x"])]) := rfl

/-! ### SuggestionParser

Model of the parse-and-validate block of `getSchedulingSuggestions`
(`src/index.ts` lines 176-188):

```
const suggestions = JSON.parse('{' + response.content[0].text);
if (!suggestions.recommendations || !Array.isArray(suggestions.recommendations)) {
  throw new Error('Invalid response structure');
}
return suggestions;
```

Both the `SyntaxError` from `JSON.parse` and the structure error are caught
by the surrounding `catch`, which rethrows a single
`'Failed to parse scheduling suggestions'` error — the `MalformedOutput`
failure of the spec. -/

/-- The error message thrown for any malformed oracle output. -/
def malformedOutputMsg : String := "Failed to parse scheduling suggestions"

/-- Model of the parsing stage: prepend the pre-seeded opening brace to the
oracle text, decode, check that the top level has a truthy `recommendations`
field that is an array, and return the whole decoded object. -/
def parseSuggestions (text : String) : Except String Json :=
  match Json.parse ("\x7b" ++ text) with
  | none => .error malformedOutputMsg
  | some suggestions =>
    match suggestions.get? "recommendations" with
    | none => .error malformedOutputMsg
    | some recs =>
      if recs.falsy ∨ ¬ recs.isArr then .error malformedOutputMsg
      else .ok suggestions

/-- The recommendations array of a parse result (what `main` hands to
`executeCalendarActions` as `suggestions.recommendations`). -/
def recsOf : Except String Json → Option (List Json)
  | .error _ => none
  | .ok suggestions =>
    match suggestions.get? "recommendations" with
    | some (.arr recs) => some recs
    | _ => none

/-! ### ActionReconciler

Model of `executeCalendarActions` (`src/index.ts` lines 215-281).  The
Google-calendar mutation capability (`calendar.events.insert`) is abstracted
as `cap : Nat → Option String`: for the recommendation at position `i`,
`cap i = none` means the insert succeeds and `cap i = some err` means it
raises a fault with message `err`.  `now` stands for
`new Date().toISOString()` at provenance-tagging time. -/

/-- The `start`/`end` objects of the event literal passed to
`calendar.events.insert`. -/
structure EventTime where
  dateTime : Option Json
  timeZone : String
  deriving Repr

/-- The `extendedProperties.private` provenance metadata of the event
literal. -/
structure PrivateProps where
  createdBy : String
  priority : Option Json
  timestamp : String
  deriving Repr

/-- The event literal passed to `calendar.events.insert` (lines 231-250). -/
structure GEvent where
  summary : Option Json
  description : String
  start : EventTime
  stop : EventTime
  extendedPrivate : PrivateProps
  deriving Repr

/-- What one completed iteration of the reconciliation loop does for one
recommendation, as observable behaviour (calendar calls and console
records):
* `created call`: the `CREATE` branch ran, `insert` was invoked with
  `call` and succeeded (`✓ Created` logged);
* `failed call? err`: the `catch` block ran to completion — `err` was
  raised either by `insert` after sending `call` (`call? = some call`) or
  by a `TypeError` before any insert (`call? = none`); the loop logs
  `Failed to process recommendation` and continues.  (This requires the
  recommendation itself to be non-null: on a `null` element the `catch`
  block's own `recommendation.title` access throws and no `StepResult` is
  produced at all — see `execStep`.);
* `moveNotImplemented` / `deleteNotImplemented`: the `MOVE`/`DELETE` branch
  logged its not-implemented message, no mutation attempted;
* `unknownAction`: the `default` branch warned about an unknown action
  type, no mutation attempted. -/
inductive StepResult where
  | created : GEvent → StepResult
  | failed : Option GEvent → String → StepResult
  | moveNotImplemented : StepResult
  | deleteNotImplemented : StepResult
  | unknownAction : StepResult
  deriving Repr

/-- The event literal of the `CREATE` branch (lines 231-250): `details` is
`calendarAction.details` and `priority` is `recommendation.priority`. -/
def eventFor (now : String) (details : Json) (priority : Option Json) : GEvent :=
  { summary := details.get? "title"
    description := jsTemplate (details.get? "description")
    start := { dateTime := details.get? "startTime"
               timeZone := "America/Los_Angeles" }
    stop := { dateTime := details.get? "endTime"
              timeZone := "America/Los_Angeles" }
    extendedPrivate :=
      { createdBy := "time-management-system"
        priority := priority
        timestamp := now } }

/-- The body of one loop iteration on a non-null recommendation value
`rec`, under capability behaviour `cap` for this recommendation.  Follows
the JavaScript semantics of lines 223-279: property access on `undefined`
or `null` raises a `TypeError`, which the `catch` turns into a `failed`
record (for a non-null `rec` the `catch` block's
`recommendation.title` interpolation succeeds, so the record is produced
and the loop continues); the `switch` compares `calendarAction.type`
against the three string literals and falls through to `default`
otherwise. -/
def execStepBody (cap : Option String) (now : String) (rec : Json) : StepResult :=
  match rec.get? "calendarAction" with
  | none => .failed none "TypeError"        -- calendarAction.type on undefined
  | some .null => .failed none "TypeError"  -- calendarAction.type on null
  | some ca =>
    match ca.get? "type" with
    | some (.str "CREATE") =>
      -- `${calendarAction.details.title}` throws when details is
      -- undefined or null.
      match ca.get? "details" with
      | none => .failed none "TypeError"
      | some .null => .failed none "TypeError"
      | some details =>
        match cap with
        | none => .created (eventFor now details (rec.get? "priority"))
        | some err => .failed (some (eventFor now details (rec.get? "priority"))) err
    | some (.str "MOVE") => .moveNotImplemented
    | some (.str "DELETE") => .deleteNotImplemented
    | _ => .unknownAction

/-- One iteration of the `for` loop of `executeCalendarActions`.  On a
`null` recommendation the iteration does not complete:
`const { calendarAction } = recommendation` (line 225) throws a
`TypeError`, and the `catch` block (line 277) then evaluates
`recommendation.title` on the null element, which throws a second
`TypeError` from inside the `catch` — that exception is uncaught within
`executeCalendarActions`, so it escapes the iteration (`.error`) and
aborts the whole loop.  On any non-null recommendation every exception
raised in the `try` is caught and the `catch` completes, so the iteration
yields a `StepResult` (`.ok`) and the loop continues. -/
def execStep (cap : Option String) (now : String) (rec : Json) :
    Except String StepResult :=
  match rec with
  | .null => .error "TypeError"
  | _ => .ok (execStepBody cap now rec)

/-- The reconciliation loop: one `execStep` per recommendation, in order,
with the capability keyed by position.  A completed iteration's result is
accumulated and the recursion continues — the isolation of the code's
`// Continue processing other recommendations even if one fails` — but an
exception escaping an iteration (a null element, see `execStep`) stops the
loop: the pair's second component records it and no further
recommendation is processed. -/
def execLoop (cap : Nat → Option String) (now : String) :
    Nat → List Json → List StepResult × Option String
  | _, [] => ([], none)
  | i, rec :: rest =>
    match execStep (cap i) now rec with
    | .error e => ([], some e)
    | .ok s =>
      let r := execLoop cap now (i + 1) rest
      (s :: r.1, r.2)

/-- Result of `executeCalendarActions`: the completed iterations (in
order) and the exception, if any, that escaped the loop and aborted it. -/
structure ExecResult where
  steps : List StepResult
  thrown : Option String
  deriving Repr

/-- The value the caller's `await` observes: the TypeScript function has
return type `Promise<void>`, so a completed run settles to the unit value
and an aborted run rejects with the escaped exception. -/
def ExecResult.ret (r : ExecResult) : Except String Unit :=
  match r.thrown with
  | some e => .error e
  | none => .ok ()

/-- Model of `executeCalendarActions` (lines 215-281). -/
def executeCalendarActions (cap : Nat → Option String) (now : String)
    (recommendations : List Json) : ExecResult :=
  { steps := (execLoop cap now 0 recommendations).1
    thrown := (execLoop cap now 0 recommendations).2 }

/-- The `insert` invocations a step sends to the calendar write
collaborator (a faulting insert has still been invoked). -/
def stepCalls : StepResult → List GEvent
  | .created e => [e]
  | .failed (some e) _ => [e]
  | _ => []

/-- All `insert` invocations of a run, in order. -/
def execCalls (r : ExecResult) : List GEvent :=
  r.steps.flatMap stepCalls

/-- The spec's per-recommendation `ActionOutcome`, abstracted from the
observable behaviour of one loop iteration. -/
inductive ActionOutcome where
  | Applied : ActionOutcome
  | Skipped : String → ActionOutcome
  | Failed : String → ActionOutcome
  deriving Repr

/-- Abstraction from a loop iteration's behaviour to the spec's outcome:
a successful create is `Applied`; a caught fault is `Failed` with its
reason; the not-implemented and unknown-action branches record a skip with
the message the code logs. -/
def StepResult.toOutcome : StepResult → ActionOutcome
  | .created _ => .Applied
  | .failed _ err => .Failed err
  | .moveNotImplemented => .Skipped "Move event functionality not implemented yet"
  | .deleteNotImplemented => .Skipped "Delete event functionality not implemented yet"
  | .unknownAction => .Skipped "Unknown action type"

/-- The outcome sequence of a run. -/
def outcomes (r : ExecResult) : List ActionOutcome :=
  r.steps.map StepResult.toOutcome

/-! ### CalendarSnapshot

Model of `getCalendarEvents` (`src/index.ts` lines 65-82) and of the
`formattedEvents` normalization inside `getSchedulingSuggestions`
(lines 97-101). -/

/-- The parameters of the `calendar.events.list` request.  `timeMin` and
`timeMax` are kept as epoch milliseconds; the source formats these instants
with `toISOString()` before sending them. -/
structure EventsListParams where
  calendarId : String
  timeMin : Int
  timeMax : Int
  singleEvents : Bool
  orderBy : String
  deriving Repr

/-- The `events.list` query built by `getCalendarEvents`: last 30 days to
next 7 days around `nowMs` (`Date.now()`). -/
def calendarQuery (nowMs : Int) : EventsListParams :=
  { calendarId := "primary"
    timeMin := nowMs - 30 * 24 * 60 * 60 * 1000
    timeMax := nowMs + 7 * 24 * 60 * 60 * 1000
    singleEvents := true
    orderBy := "startTime" }

/-- Model of `getCalendarEvents`: issue the query to the calendar read
collaborator and return its items unchanged (faults propagate). -/
def getCalendarEvents (nowMs : Int)
    (listEvents : EventsListParams → Except String (List Json)) :
    Except String (List Json) :=
  listEvents (calendarQuery nowMs)

/-- Optional chaining `e[k1]?.[k2]`: `undefined` when `e[k1]` is undefined
or null, otherwise the property access (which also misses on primitives). -/
def Json.chain2 (e : Json) (k1 k2 : String) : Option Json :=
  match e.get? k1 with
  | none => none
  | some .null => none
  | some v => v.get? k2

/-- JavaScript `a || b` on possibly-undefined values: `b` when `a` is
undefined or falsy. -/
def jsOr : Option Json → Option Json → Option Json
  | none, b => b
  | some v, b => if v.falsy then b else some v

/-- One entry of `formattedEvents`: `{summary, start, end}` with
possibly-undefined values. -/
structure FormattedEvent where
  summary : Option Json
  start : Option Json
  stop : Option Json
  deriving Repr

/-- The per-event normalization of lines 97-101. -/
def formatEvent (event : Json) : FormattedEvent :=
  { summary := event.get? "summary"
    start := jsOr (event.chain2 "start" "dateTime") (event.chain2 "start" "date")
    stop := jsOr (event.chain2 "end" "dateTime") (event.chain2 "end" "date") }

/-- `events.map(event => ({...}))`. -/
def formatEvents (events : List Json) : List FormattedEvent :=
  events.map formatEvent

/-! ### A model of `JSON.stringify(x, null, 2)` -/

/-- A hexadecimal digit. -/
def hexDigit (n : Nat) : Char :=
  if n < 10 then Char.ofNat (48 + n) else Char.ofNat (87 + n)

/-- Escape one character for a JSON string literal. -/
def escapeChar (c : Char) : String :=
  if c = '"' then "\\\""
  else if c = '\\' then "\\\\"
  else if c = '\n' then "\\n"
  else if c = '\t' then "\\t"
  else if c = '\r' then "\\r"
  else if c.toNat < 32 then
    "\\u00" ++ String.singleton (hexDigit (c.toNat / 16))
      ++ String.singleton (hexDigit (c.toNat % 16))
  else String.singleton c

/-- Escape a string for a JSON string literal. -/
def escapeString (s : String) : String :=
  String.join (s.data.map escapeChar)

/-- `n` spaces of indentation. -/
def pad (n : Nat) : String :=
  String.mk (List.replicate n ' ')

mutual

/-- Pretty-print a JSON value at indentation `ind`, as
`JSON.stringify(x, null, 2)` does. -/
def stringifyVal (ind : Nat) : Json → String
  | .null => "null"
  | .bool true => "true"
  | .bool false => "false"
  | .num r => r
  | .str s => "\"" ++ escapeString s ++ "\""
  | .arr [] => "[]"
  | .arr (x :: xs) =>
    "[\n" ++ stringifyItems (ind + 2) (x :: xs) ++ "\n" ++ pad ind ++ "]"
  | .obj [] => "\x7b\x7d"
  | .obj (f :: fs) =>
    "\x7b\n" ++ stringifyFields (ind + 2) (f :: fs) ++ "\n" ++ pad ind ++ "\x7d"

/-- Pretty-print array items, one per line. -/
def stringifyItems (ind : Nat) : List Json → String
  | [] => ""
  | [x] => pad ind ++ stringifyVal ind x
  | x :: y :: xs =>
    pad ind ++ stringifyVal ind x ++ ",\n" ++ stringifyItems ind (y :: xs)

/-- Pretty-print object fields, one per line. -/
def stringifyFields (ind : Nat) : List (String × Json) → String
  | [] => ""
  | [(k, v)] => pad ind ++ "\"" ++ escapeString k ++ "\": " ++ stringifyVal ind v
  | (k, v) :: f :: fs =>
    pad ind ++ "\"" ++ escapeString k ++ "\": " ++ stringifyVal ind v
      ++ ",\n" ++ stringifyFields ind (f :: fs)

end

/-- A `FormattedEvent` as the object `JSON.stringify` sees: keys in
declaration order, keys with `undefined` values omitted. -/
def formattedEventJson (f : FormattedEvent) : Json :=
  .obj (List.filterMap id
    [f.summary.map (fun v => ("summary", v)),
     f.start.map (fun v => ("start", v)),
     f.stop.map (fun v => ("end", v))])

/-- `JSON.stringify(formattedEvents, null, 2)`. -/
def stringifyFormattedEvents (events : List Json) : String :=
  stringifyVal 0 (.arr ((formatEvents events).map formattedEventJson))

example : stringifyFormattedEvents
    [.obj [("summary", .str "A"),
           ("start", .obj [("dateTime", .str "s")]),
           ("end", .obj [("date", .str "e")])]] =
    "[\n  \x7b\n    \"summary\": \"A\",\n    \"start\": \"s\",\n    \"end\": \"e\"\n  \x7d\n]" := rfl

/-! ### OracleRequestBuilder

Model of the request construction in `getSchedulingSuggestions`
(`src/index.ts` lines 97-170).  The scheduling strategy enters the prompt
only through `yaml.stringify(strategy)`; that serialized text is taken as
the `strategyYaml` input.  `nowIso` stands for
`new Date().toISOString()`. -/

/-- The fixed instruction block between the calendar-events section and the
end of the prompt (lines 118-155 of the template literal). -/
def instructionsBlock : String :=
  String.intercalate "\n"
    ["IMPORTANT INSTRUCTIONS:",
     "1. For EACH recurring event in the strategy:",
     "   - Create a separate recommendation",
     "   - Schedule it for the next appropriate time slot",
     "   - Follow user rules about timing (e.g., work hours, day start/end times)",
     "   - Consider frequency specified (daily, weekly, etc.)",
     "   - Account for existing calendar events to avoid conflicts",
     "",
     "2. For EACH adhoc request:",
     "   - Create a recommendation that fits within the specified timeframe",
     "   - Follow prioritization rules from the strategy",
     "",
     "3. Generate recommendations for AT LEAST:",
     "   - All daily recurring events for the next 7 days",
     "   - All weekly recurring events for next occurrence",
     "   - All adhoc requests within their specified timeframes",
     "",
     "Format your response as a JSON array of recommendations with this structure:",
     "\x7b",
     "  \"recommendations\": [",
     "    \x7b",
     "      \"priority\": \"HIGH\" | \"MEDIUM\" | \"LOW\",",
     "      \"recommendation\": \"Human readable description of what should be done\",",
     "      \"reason\": \"Clear explanation of why this scheduling choice was made\",",
     "      \"calendarAction\": \x7b",
     "        \"type\": \"CREATE\" | \"MOVE\" | \"DELETE\",",
     "        \"details\": \x7b",
     "          \"title\": \"string\",",
     "          \"description\": \"string\",",
     "          \"startTime\": \"ISO datetime\",",
     "          \"endTime\": \"ISO datetime\"",
     "        \x7d",
     "      \x7d",
     "    \x7d",
     "  ]",
     "\x7d",
     "",
     "CRITICAL: Ensure you create recommendations for EVERY recurring event and adhoc request, even if you have to make reasonable assumptions about timing and duration. If a recurring event is specified as daily, create 7 instances for the next 7 days."]

/-- The prompt (`context`, lines 103-155): the fixed preamble, the current
time, the serialized strategy, the serialized calendar events, and the fixed
instruction block. -/
def buildContext (strategyYaml : String) (events : List Json)
    (nowIso : String) : String :=
  String.intercalate "\n"
    ["",
     "You are a scheduling assistant responsible for maintaining my calendar according to my strategy. Your primary tasks are:",
     "1. Generate calendar events for ALL recurring activities",
     "2. Handle any adhoc requests",
     "3. Optimize existing calendar events",
     "",
     "The current time:",
     nowIso,
     "",
     "My scheduling strategy:",
     strategyYaml,
     "",
     "My current calendar events for the next 7 days:",
     stringifyFormattedEvents events,
     "",
     instructionsBlock]

/-- One chat message of the oracle request. -/
structure OracleMessage where
  role : String
  content : String
  deriving Repr, DecidableEq

/-- The request payload sent to `anthropic.messages.create`
(lines 159-170).  `temperature` is kept as its source text to avoid
floating-point semantics. -/
structure OracleRequest where
  model : String
  maxTokens : Nat
  messages : List OracleMessage
  temperature : String
  deriving Repr, DecidableEq

/-- The full oracle request: the prompt as the user message plus the
pre-seeded `'{'` assistant message that the parser later re-prepends. -/
def buildRequest (strategyYaml : String) (events : List Json)
    (nowIso : String) : OracleRequest :=
  { model := "claude-3-sonnet-20240229"
    maxTokens := 4096
    messages := [{ role := "user",
                   content := buildContext strategyYaml events nowIso },
                 { role := "assistant", content := "\x7b" }]
    temperature := "0.8" }

/-! ### The run (`main`, lines 283-333)

The external collaborators are gathered into an `Env`; `runMain` records
the trace of the run's external calls in order:  the calendar read, the
oracle call, and one calendar write per `insert` invocation.  `main`
catches every error at its boundary and logs it, so the run's result is an
`Except` rather than a crash. -/

/-- External calls of the enumeration used by the error-handling design:
calendar read, oracle call, calendar write. -/
inductive ExtCall where
  | calendarRead : ExtCall
  | oracleCall : ExtCall
  | calendarWrite : ExtCall
  deriving Repr, DecidableEq

/-- The environment of one run: configuration/secret state and the
behaviour of the external collaborators. -/
structure Env where
  /-- Content of `strategy.yaml` as serialized back by `yaml.stringify`;
  `none` when the policy file is missing (the `readFileSync` throws). -/
  strategyYaml : Option String
  /-- Is `credentials.json` present? -/
  credentialsExist : Bool
  /-- `process.env.ANTHROPIC_API_KEY`. -/
  anthropicKey : Option String
  /-- `Date.now()` in epoch milliseconds. -/
  nowMs : Int
  /-- `new Date().toISOString()`. -/
  nowIso : String
  /-- The calendar read collaborator (`calendar.events.list`). -/
  listEvents : EventsListParams → Except String (List Json)
  /-- The suggestion oracle: request to response text, or a fault. -/
  oracle : OracleRequest → Except String String
  /-- The confirmation prompt's answer (`y`). -/
  userConfirms : Bool
  /-- The calendar write capability, per recommendation position. -/
  insertCap : Nat → Option String

/-- `!anthropicKey`: the key is missing when undefined or empty. -/
def keyMissing : Option String → Bool
  | none => true
  | some s => s = ""

/-- Model of `main`: the trace of external calls made, and the run's
result (`.error` = the fatal error logged at the run boundary). -/
def runMain (env : Env) : List ExtCall × Except String Unit :=
  match env.strategyYaml with
  | none => ([], .error "ENOENT: no such file or directory, open strategy.yaml")
  | some strategyYaml =>
    if ¬ env.credentialsExist then
      ([], .error "credentials.json not found in project root")
    else
      match env.listEvents (calendarQuery env.nowMs) with
      | .error e => ([.calendarRead], .error e)
      | .ok events =>
        -- `getSchedulingSuggestions` checks the key before constructing
        -- the client and calling the oracle (lines 89-91).
        if keyMissing env.anthropicKey then
          ([.calendarRead],
           .error "ANTHROPIC_API_KEY not found in environment variables")
        else
          match env.oracle (buildRequest strategyYaml events env.nowIso) with
          | .error e => ([.calendarRead, .oracleCall], .error e)
          | .ok text =>
            match parseSuggestions text with
            | .error e => ([.calendarRead, .oracleCall], .error e)
            | .ok suggestions =>
              let recs :=
                match suggestions.get? "recommendations" with
                | some (.arr rs) => rs
                | _ => []
              if env.userConfirms then
                -- The writes actually sent before any abort are traced;
                -- an exception escaping the loop is caught and logged at
                -- the run boundary by the catch of `main`.
                let r := executeCalendarActions env.insertCap env.nowIso recs
                ([.calendarRead, .oracleCall]
                   ++ (execCalls r).map (fun _ => .calendarWrite), r.ret)
              else
                ([.calendarRead, .oracleCall], .ok ())

/-! ### Helper predicates and lemmas about the reconciliation loop -/

/-- Is the value `null`? -/
def Json.isNull : Json → Bool
  | .null => true
  | _ => false

/-- Does the outcome record a failure? -/
def ActionOutcome.isFailed : ActionOutcome → Bool
  | .Failed _ => true
  | _ => false

/-- The loop body reaches its `switch` and, for `CREATE`, its insert,
without raising a `TypeError`: the recommendation is not null, has a
non-null `calendarAction`, and — when the action type is `CREATE` — a
non-null, defined `details`. -/
def recSafe (rec : Json) : Bool :=
  match rec with
  | .null => false
  | _ =>
    match rec.get? "calendarAction" with
    | none => false
    | some .null => false
    | some ca =>
      match ca.get? "type" with
      | some (.str "CREATE") =>
        match ca.get? "details" with
        | none => false
        | some .null => false
        | some _ => true
      | _ => true

theorem get?_null (key : String) : Json.get? .null key = none := rfl

/-- A value with a defined property is an object, hence not null. -/
theorem Json.isNull_false_of_get? {rec : Json} {k : String} {v : Json}
    (h : rec.get? k = some v) : rec.isNull = false := by
  cases rec <;> simp_all [Json.get?, Json.isNull]

/-- On a non-null recommendation the iteration completes with the body's
result. -/
theorem execStep_ok (cap : Option String) (now : String) (rec : Json)
    (h : rec.isNull = false) :
    execStep cap now rec = .ok (execStepBody cap now rec) := by
  cases rec <;> first
    | rfl
    | simp [Json.isNull] at h

/-- A safe recommendation is non-null. -/
theorem recSafe_isNull_false (rec : Json) (h : recSafe rec = true) :
    rec.isNull = false := by
  cases rec <;> first
    | rfl
    | simp [recSafe] at h

/-- Unfolding the loop body on a `CREATE` recommendation whose `details`
is defined and non-null. -/
theorem execStepBody_create_eq (cap : Option String) (now : String)
    (rec ca details : Json)
    (h1 : rec.get? "calendarAction" = some ca)
    (h2 : ca.get? "type" = some (.str "CREATE"))
    (h3 : ca.get? "details" = some details)
    (h4 : details.isNull = false) :
    execStepBody cap now rec =
      match cap with
      | none => .created (eventFor now details (rec.get? "priority"))
      | some err => .failed (some (eventFor now details (rec.get? "priority"))) err := by
  obtain ⟨fields, rfl⟩ : ∃ fields, rec = .obj fields := by
    cases rec
    case obj fields => exact ⟨fields, rfl⟩
    all_goals simp [Json.get?] at h1
  obtain ⟨cafields, rfl⟩ : ∃ cafields, ca = .obj cafields := by
    cases ca
    case obj cafields => exact ⟨cafields, rfl⟩
    all_goals simp [Json.get?] at h2
  simp only [execStepBody, h1, h2, h3]
  cases details <;> simp_all [Json.isNull]

/-- Unfolding the loop body on a `MOVE` recommendation. -/
theorem execStepBody_move_eq (cap : Option String) (now : String)
    (rec ca : Json)
    (h1 : rec.get? "calendarAction" = some ca)
    (h2 : ca.get? "type" = some (.str "MOVE")) :
    execStepBody cap now rec = .moveNotImplemented := by
  obtain ⟨fields, rfl⟩ : ∃ fields, rec = .obj fields := by
    cases rec
    case obj fields => exact ⟨fields, rfl⟩
    all_goals simp [Json.get?] at h1
  obtain ⟨cafields, rfl⟩ : ∃ cafields, ca = .obj cafields := by
    cases ca
    case obj cafields => exact ⟨cafields, rfl⟩
    all_goals simp [Json.get?] at h2
  simp only [execStepBody, h1, h2]

/-- Unfolding the loop body on a `DELETE` recommendation. -/
theorem execStepBody_delete_eq (cap : Option String) (now : String)
    (rec ca : Json)
    (h1 : rec.get? "calendarAction" = some ca)
    (h2 : ca.get? "type" = some (.str "DELETE")) :
    execStepBody cap now rec = .deleteNotImplemented := by
  obtain ⟨fields, rfl⟩ : ∃ fields, rec = .obj fields := by
    cases rec
    case obj fields => exact ⟨fields, rfl⟩
    all_goals simp [Json.get?] at h1
  obtain ⟨cafields, rfl⟩ : ∃ cafields, ca = .obj cafields := by
    cases ca
    case obj cafields => exact ⟨cafields, rfl⟩
    all_goals simp [Json.get?] at h2
  simp only [execStepBody, h1, h2]

/-- A safe recommendation never yields a `Failed` outcome when its insert
(if any) succeeds: the branch taken is a successful create or one of the
skip branches. -/
theorem execStepBody_safe_not_failed (now : String) (rec : Json)
    (h : recSafe rec = true) :
    ((execStepBody none now rec).toOutcome).isFailed = false := by
  obtain ⟨fields, rfl⟩ : ∃ fields, rec = .obj fields := by
    cases rec
    case obj fields => exact ⟨fields, rfl⟩
    all_goals simp [recSafe, Json.get?] at h
  rcases hca : Json.get? (.obj fields) "calendarAction" with _ | ca
  · simp [recSafe, hca] at h
  · cases ca
    case null => simp [recSafe, hca] at h
    case obj cafields =>
      simp only [execStepBody, hca]
      split
      · rename_i heq
        simp only [recSafe, hca, heq] at h
        split
        · rename_i heq2
          simp [heq2] at h
        · rename_i heq2
          simp [heq2] at h
        · simp [StepResult.toOutcome, ActionOutcome.isFailed]
      · simp [StepResult.toOutcome, ActionOutcome.isFailed]
      · simp [StepResult.toOutcome, ActionOutcome.isFailed]
      · simp [StepResult.toOutcome, ActionOutcome.isFailed]
    all_goals (
      simp only [execStepBody, hca]
      simp [Json.get?, StepResult.toOutcome, ActionOutcome.isFailed])

/-- On a list without null elements no exception escapes the loop. -/
theorem execLoop_thrown_none (cap : Nat → Option String) (now : String)
    (i : Nat) (recs : List Json)
    (hnn : ∀ r ∈ recs, r.isNull = false) :
    (execLoop cap now i recs).2 = none := by
  induction recs generalizing i with
  | nil => rfl
  | cons r rest ih =>
    have hr : r.isNull = false := hnn r (List.mem_cons_self r rest)
    simp [execLoop, execStep_ok (cap i) now r hr]
    exact ih (i + 1) (fun x hx => hnn x (List.mem_cons_of_mem r hx))

/-- On a list without null elements the loop yields one step per
recommendation. -/
theorem execLoop_length (cap : Nat → Option String) (now : String) (i : Nat)
    (recs : List Json)
    (hnn : ∀ r ∈ recs, r.isNull = false) :
    (execLoop cap now i recs).1.length = recs.length := by
  induction recs generalizing i with
  | nil => rfl
  | cons r rest ih =>
    have hr : r.isNull = false := hnn r (List.mem_cons_self r rest)
    simp [execLoop, execStep_ok (cap i) now r hr]
    exact ih (i + 1) (fun x hx => hnn x (List.mem_cons_of_mem r hx))

/-- On a list without null elements the `j`-th step of the loop is the
body's result on the `j`-th recommendation, under the capability behaviour
at its absolute position. -/
theorem execLoop_getElem? (cap : Nat → Option String) (now : String)
    (i j : Nat) (recs : List Json)
    (hnn : ∀ r ∈ recs, r.isNull = false) :
    (execLoop cap now i recs).1[j]? =
      recs[j]?.map (fun r => execStepBody (cap (i + j)) now r) := by
  induction recs generalizing i j with
  | nil => simp [execLoop]
  | cons r rest ih =>
    have hr : r.isNull = false := hnn r (List.mem_cons_self r rest)
    have hrest : ∀ x ∈ rest, x.isNull = false :=
      fun x hx => hnn x (List.mem_cons_of_mem r hx)
    cases j with
    | zero => simp [execLoop, execStep_ok (cap i) now r hr]
    | succ j =>
      simp only [execLoop, execStep_ok (cap i) now r hr,
        List.getElem?_cons_succ]
      rw [ih (i + 1) j hrest]
      have : i + 1 + j = i + (j + 1) := by omega
      rw [this]

/-- The `j`-th outcome of a run on a list without null elements. -/
theorem outcomes_getElem? (cap : Nat → Option String) (now : String)
    (recs : List Json) (j : Nat)
    (hnn : ∀ r ∈ recs, r.isNull = false) :
    (outcomes (executeCalendarActions cap now recs))[j]? =
      recs[j]?.map (fun r => (execStepBody (cap j) now r).toOutcome) := by
  simp only [outcomes, executeCalendarActions, List.getElem?_map,
    execLoop_getElem? cap now 0 j recs hnn, Option.map_map, Nat.zero_add]
  rfl

/-- On a list without null elements the outcome sequence has exactly the
input's length. -/
theorem outcomes_length (cap : Nat → Option String) (now : String)
    (recs : List Json)
    (hnn : ∀ r ∈ recs, r.isNull = false) :
    (outcomes (executeCalendarActions cap now recs)).length = recs.length := by
  simp [outcomes, executeCalendarActions, execLoop_length cap now 0 recs hnn]

/-- On a list without null elements the run completes: nothing escapes. -/
theorem executeCalendarActions_thrown_none (cap : Nat → Option String)
    (now : String) (recs : List Json)
    (hnn : ∀ r ∈ recs, r.isNull = false) :
    (executeCalendarActions cap now recs).thrown = none := by
  simp [executeCalendarActions, execLoop_thrown_none cap now 0 recs hnn]

/-! ### Claim theorems -/

/-- C2: for every list of N recommendations and a mutation capability that
faults on exactly one of them (a `CREATE` that reaches the insert — only
those invoke the capability), the reconciler catches the fault, records
`Failed(reason)` for that recommendation only, and continues through every
subsequent recommendation: the outcome sequence has length N, `Failed` at
exactly the faulting index, and no `Failed` anywhere else (the other safe
recommendations yield `Applied` or `Skipped`). -/
theorem reconciler_isolates_single_fault
    (recs : List Json) (k : Nat) (rk ca details : Json) (err now : String)
    (cap : Nat → Option String)
    (hk : recs[k]? = some rk)
    (h1 : rk.get? "calendarAction" = some ca)
    (h2 : ca.get? "type" = some (.str "CREATE"))
    (h3 : ca.get? "details" = some details)
    (h4 : details.isNull = false)
    (hsafe : ∀ r ∈ recs, recSafe r = true)
    (hcap : ∀ j, cap j = if j = k then some err else none) :
    (outcomes (executeCalendarActions cap now recs)).length = recs.length
    ∧ (outcomes (executeCalendarActions cap now recs))[k]? =
        some (.Failed err)
    ∧ ∀ j o, j ≠ k →
        (outcomes (executeCalendarActions cap now recs))[j]? = some o →
        o.isFailed = false := by
  have hnn : ∀ r ∈ recs, r.isNull = false :=
    fun r hr => recSafe_isNull_false r (hsafe r hr)
  refine ⟨outcomes_length cap now recs hnn, ?_, ?_⟩
  · rw [outcomes_getElem? cap now recs k hnn, hk, Option.map_some', hcap k,
      if_pos rfl,
      execStepBody_create_eq (some err) now rk ca details h1 h2 h3 h4]
    rfl
  · intro j o hjk hget
    rw [outcomes_getElem? cap now recs j hnn, hcap j, if_neg hjk] at hget
    rcases hj : recs[j]? with _ | rj
    · rw [hj] at hget
      cases hget
    · rw [hj, Option.map_some', Option.some.injEq] at hget
      subst hget
      exact execStepBody_safe_not_failed now rj (hsafe rj (List.getElem?_mem hj))

/-- A valid `CREATE` recommendation used by several witnesses below. -/
def wCreateRec (title : String) : Json :=
  .obj [("priority", .str "HIGH"),
        ("recommendation", .str "schedule it"),
        ("reason", .str "strategy"),
        ("calendarAction", .obj
          [("type", .str "CREATE"),
           ("details", .obj
             [("title", .str title),
              ("description", .str ""),
              ("startTime", .str "2024-01-01T07:00:00Z"),
              ("endTime", .str "2024-01-01T08:00:00Z")])])]

/-- A `MOVE` recommendation used by witnesses below. -/
def wMoveRec : Json :=
  .obj [("priority", .str "LOW"),
        ("calendarAction", .obj [("type", .str "MOVE")])]

/-- The capability that faults exactly at position 1. -/
def wCapFailAt1 : Nat → Option String :=
  fun j => if j = 1 then some "insert fault" else none

/-- Witness for C2: three recommendations, the capability faults on the
second; the run yields three outcomes with `Failed` exactly at index 1. -/
theorem reconciler_isolates_single_fault_witness :
    (outcomes (executeCalendarActions wCapFailAt1 "now"
        [wCreateRec "A", wCreateRec "B", wMoveRec])).length = 3
    ∧ (outcomes (executeCalendarActions wCapFailAt1 "now"
        [wCreateRec "A", wCreateRec "B", wMoveRec]))[1]? =
        some (.Failed "insert fault")
    ∧ ∀ j o, j ≠ 1 →
        (outcomes (executeCalendarActions wCapFailAt1 "now"
          [wCreateRec "A", wCreateRec "B", wMoveRec]))[j]? = some o →
        o.isFailed = false :=
  reconciler_isolates_single_fault
    [wCreateRec "A", wCreateRec "B", wMoveRec] 1 (wCreateRec "B") _ _
    "insert fault" "now" wCapFailAt1 rfl rfl rfl rfl rfl
    (by decide) (fun _ => rfl)

/-- C4 counterexample: two parts of the claim fail.  (a) The collected
`(Recommendation, ActionOutcome)` report is not returned to the caller:
`executeCalendarActions` has return type `Promise<void>`, so two runs whose
outcome reports differ (one `Skipped` outcome versus none) hand `main` the
identical settled value — the outcomes exist only in the console log.
(b) Nor does every list get one outcome per recommendation: on a batch
containing a `null` element (reachable, since the parser validates no
element) the `catch` block's own `recommendation.title` access throws, the
loop aborts, and a two-element list yields zero outcomes with the
`TypeError` escaping. -/
theorem reconciler_report_not_returned :
    ((executeCalendarActions (fun _ => none) "t" [wMoveRec]).ret
      = (executeCalendarActions (fun _ => none) "t" []).ret
    ∧ outcomes (executeCalendarActions (fun _ => none) "t" [wMoveRec])
        = [.Skipped "Move event functionality not implemented yet"]
    ∧ outcomes (executeCalendarActions (fun _ => none) "t" []) = [])
    ∧ executeCalendarActions (fun _ => none) "t" [.null, wMoveRec] =
        { steps := [], thrown := some "TypeError" } :=
  ⟨⟨rfl, rfl, rfl⟩, rfl⟩

/-- C4 (amended): for every recommendation list without null elements,
reconciliation runs to completion and produces exactly one outcome per
recommendation, in input order — the `j`-th outcome is the outcome of the
`j`-th recommendation — but the function returns void: the caller observes
only the settled unit value, not the report, which exists in the run's
console output alone.  (A list containing a null element instead aborts
the loop at that element — see the counterexample.) -/
theorem reconciler_one_outcome_per_recommendation
    (cap : Nat → Option String) (now : String) (recs : List Json)
    (hnn : ∀ r ∈ recs, r.isNull = false) :
    (outcomes (executeCalendarActions cap now recs)).length = recs.length
    ∧ (∀ j : Nat, (outcomes (executeCalendarActions cap now recs))[j]? =
          recs[j]?.map (fun r => (execStepBody (cap j) now r).toOutcome))
    ∧ (executeCalendarActions cap now recs).thrown = none
    ∧ (executeCalendarActions cap now recs).ret = .ok () := by
  refine ⟨outcomes_length cap now recs hnn,
    fun j => outcomes_getElem? cap now recs j hnn,
    executeCalendarActions_thrown_none cap now recs hnn, ?_⟩
  rw [ExecResult.ret, executeCalendarActions_thrown_none cap now recs hnn]

/-- Witness for the amended C4: a concrete three-element null-free batch
(two CREATEs, one MOVE) yields three outcomes, completes, and settles to
the unit value. -/
theorem reconciler_one_outcome_per_recommendation_witness :
    (outcomes (executeCalendarActions wCapFailAt1 "now"
        [wCreateRec "A", wCreateRec "B", wMoveRec])).length = 3
    ∧ (∀ j : Nat, (outcomes (executeCalendarActions wCapFailAt1 "now"
          [wCreateRec "A", wCreateRec "B", wMoveRec]))[j]? =
          [wCreateRec "A", wCreateRec "B", wMoveRec][j]?.map
            (fun r => (execStepBody (wCapFailAt1 j) "now" r).toOutcome))
    ∧ (executeCalendarActions wCapFailAt1 "now"
        [wCreateRec "A", wCreateRec "B", wMoveRec]).thrown = none
    ∧ (executeCalendarActions wCapFailAt1 "now"
        [wCreateRec "A", wCreateRec "B", wMoveRec]).ret = .ok () :=
  reconciler_one_outcome_per_recommendation wCapFailAt1 "now"
    [wCreateRec "A", wCreateRec "B", wMoveRec] (by decide)

/-- C5: a recommendation whose action type is `MOVE` or `DELETE` takes the
corresponding not-implemented branch: the iteration completes (`.ok`, no
exception), the reconciler records a skip (the branch's console record;
the spec phrases it `Skipped("not supported")`), and sends no mutation
call to the calendar (in particular the outcome is never `Failed`). -/
theorem reconciler_skips_move_delete
    (cap : Option String) (now : String) (rec ca : Json)
    (h1 : rec.get? "calendarAction" = some ca) :
    (ca.get? "type" = some (.str "MOVE") →
       execStep cap now rec = .ok .moveNotImplemented
       ∧ execStepBody cap now rec = .moveNotImplemented
       ∧ stepCalls (execStepBody cap now rec) = []
       ∧ (execStepBody cap now rec).toOutcome =
           .Skipped "Move event functionality not implemented yet")
    ∧ (ca.get? "type" = some (.str "DELETE") →
       execStep cap now rec = .ok .deleteNotImplemented
       ∧ execStepBody cap now rec = .deleteNotImplemented
       ∧ stepCalls (execStepBody cap now rec) = []
       ∧ (execStepBody cap now rec).toOutcome =
           .Skipped "Delete event functionality not implemented yet") := by
  have hok := execStep_ok cap now rec (Json.isNull_false_of_get? h1)
  constructor
  · intro h2
    rw [hok, execStepBody_move_eq cap now rec ca h1 h2]
    exact ⟨rfl, rfl, rfl, rfl⟩
  · intro h2
    rw [hok, execStepBody_delete_eq cap now rec ca h1 h2]
    exact ⟨rfl, rfl, rfl, rfl⟩

/-- A `DELETE` recommendation used by witnesses below. -/
def wDeleteRec : Json :=
  .obj [("priority", .str "LOW"),
        ("calendarAction", .obj [("type", .str "DELETE")])]

/-- Witness for C5 at a concrete `MOVE` and a concrete `DELETE`
recommendation (capability faulting or not is irrelevant: it is never
invoked). -/
theorem reconciler_skips_move_delete_witness :
    (execStep (some "boom") "t" wMoveRec = .ok .moveNotImplemented
     ∧ execStepBody (some "boom") "t" wMoveRec = .moveNotImplemented
     ∧ stepCalls (execStepBody (some "boom") "t" wMoveRec) = []
     ∧ (execStepBody (some "boom") "t" wMoveRec).toOutcome =
         .Skipped "Move event functionality not implemented yet")
    ∧ (execStep (some "boom") "t" wDeleteRec = .ok .deleteNotImplemented
     ∧ execStepBody (some "boom") "t" wDeleteRec = .deleteNotImplemented
     ∧ stepCalls (execStepBody (some "boom") "t" wDeleteRec) = []
     ∧ (execStepBody (some "boom") "t" wDeleteRec).toOutcome =
         .Skipped "Delete event functionality not implemented yet") :=
  ⟨(reconciler_skips_move_delete (some "boom") "t" wMoveRec _ rfl).1 rfl,
   (reconciler_skips_move_delete (some "boom") "t" wDeleteRec _ rfl).2 rfl⟩

/-- C6: a `CREATE` recommendation against a capability that always
succeeds produces exactly one `insert` invocation, whose event has
`start`/`end` `dateTime` equal to the recommendation's `startTime`/`endTime`,
and non-empty provenance metadata (`extendedProperties.private`) carrying
the origin marker `time-management-system`, the recommendation's
`priority`, and the run timestamp; the recorded outcome is `Applied`. -/
theorem create_applied_with_provenance
    (now : String) (rec ca details : Json)
    (h1 : rec.get? "calendarAction" = some ca)
    (h2 : ca.get? "type" = some (.str "CREATE"))
    (h3 : ca.get? "details" = some details)
    (h4 : details.isNull = false) :
    execCalls (executeCalendarActions (fun _ => none) now [rec]) =
      [eventFor now details (rec.get? "priority")]
    ∧ outcomes (executeCalendarActions (fun _ => none) now [rec]) = [.Applied]
    ∧ (eventFor now details (rec.get? "priority")).start.dateTime =
        details.get? "startTime"
    ∧ (eventFor now details (rec.get? "priority")).stop.dateTime =
        details.get? "endTime"
    ∧ (eventFor now details (rec.get? "priority")).extendedPrivate.createdBy =
        "time-management-system"
    ∧ (eventFor now details (rec.get? "priority")).extendedPrivate.priority =
        rec.get? "priority"
    ∧ (eventFor now details (rec.get? "priority")).extendedPrivate.timestamp =
        now := by
  have hok := execStep_ok none now rec (Json.isNull_false_of_get? h1)
  have hstep := execStepBody_create_eq none now rec ca details h1 h2 h3 h4
  refine ⟨?_, ?_, rfl, rfl, rfl, rfl, rfl⟩
  · simp [execCalls, executeCalendarActions, execLoop, hok, hstep, stepCalls]
  · simp [outcomes, executeCalendarActions, execLoop, hok, hstep,
      StepResult.toOutcome]

/-- The round-trip `CREATE` details of the spec's test: "Light workout",
07:00 to 07:15 on 2024-01-01. -/
def wLightWorkoutDetails : Json :=
  .obj [("title", .str "Light workout"),
        ("description", .str ""),
        ("startTime", .str "2024-01-01T07:00:00Z"),
        ("endTime", .str "2024-01-01T07:15:00Z")]

/-- The round-trip `CREATE` recommendation of the spec's test. -/
def wLightWorkoutRec : Json :=
  .obj [("priority", .str "HIGH"),
        ("recommendation", .str "Light workout after grooming"),
        ("reason", .str "daily recurring event"),
        ("calendarAction", .obj
          [("type", .str "CREATE"),
           ("details", wLightWorkoutDetails)])]

/-- Witness for C6: the spec's round-trip recommendation yields `Applied`,
one insert with matching start/end, and the provenance fields. -/
theorem create_applied_with_provenance_witness :
    execCalls (executeCalendarActions (fun _ => none)
        "2024-01-01T06:00:00.000Z" [wLightWorkoutRec]) =
      [eventFor "2024-01-01T06:00:00.000Z" wLightWorkoutDetails
        (some (.str "HIGH"))]
    ∧ outcomes (executeCalendarActions (fun _ => none)
        "2024-01-01T06:00:00.000Z" [wLightWorkoutRec]) = [.Applied]
    ∧ (eventFor "2024-01-01T06:00:00.000Z" wLightWorkoutDetails
        (some (.str "HIGH"))).start.dateTime =
        some (.str "2024-01-01T07:00:00Z")
    ∧ (eventFor "2024-01-01T06:00:00.000Z" wLightWorkoutDetails
        (some (.str "HIGH"))).stop.dateTime =
        some (.str "2024-01-01T07:15:00Z")
    ∧ (eventFor "2024-01-01T06:00:00.000Z" wLightWorkoutDetails
        (some (.str "HIGH"))).extendedPrivate.createdBy =
        "time-management-system" :=
  have h := create_applied_with_provenance "2024-01-01T06:00:00.000Z"
    wLightWorkoutRec _ wLightWorkoutDetails rfl rfl rfl rfl
  ⟨h.1, h.2.1, h.2.2.1, h.2.2.2.1, h.2.2.2.2.1⟩

/-- C10: every `CREATE` recommendation that reaches the insert completes
its iteration and sends an event whose `start` and `end` both carry the
hard-coded time zone `America/Los_Angeles`, whatever the
`startTime`/`endTime` strings say and whether or not the insert then
faults. -/
theorem create_fixed_timezone
    (cap : Option String) (now : String) (rec ca details : Json)
    (h1 : rec.get? "calendarAction" = some ca)
    (h2 : ca.get? "type" = some (.str "CREATE"))
    (h3 : ca.get? "details" = some details)
    (h4 : details.isNull = false) :
    execStep cap now rec = .ok (execStepBody cap now rec)
    ∧ (stepCalls (execStepBody cap now rec)).map
        (fun e => (e.start.timeZone, e.stop.timeZone)) =
      [("America/Los_Angeles", "America/Los_Angeles")] := by
  refine ⟨execStep_ok cap now rec (Json.isNull_false_of_get? h1), ?_⟩
  rw [execStepBody_create_eq cap now rec ca details h1 h2 h3 h4]
  cases cap <;> rfl

/-- A `CREATE` recommendation whose times are qualified with a non-UTC
offset, for the C10 witness. -/
def wOffsetRec : Json :=
  .obj [("priority", .str "LOW"),
        ("calendarAction", .obj
          [("type", .str "CREATE"),
           ("details", .obj
             [("title", .str "T"),
              ("description", .str "d"),
              ("startTime", .str "2024-01-01T07:00:00+05:00"),
              ("endTime", .str "2024-01-01T08:00:00+05:00")])])]

/-- Witness for C10: a recommendation carrying `+05:00`-qualified times is
still sent with `America/Los_Angeles` on both ends, with a succeeding and
with a faulting capability. -/
theorem create_fixed_timezone_witness :
    (execStep none "t" wOffsetRec = .ok (execStepBody none "t" wOffsetRec)
    ∧ (stepCalls (execStepBody none "t" wOffsetRec)).map
        (fun e => (e.start.timeZone, e.stop.timeZone)) =
      [("America/Los_Angeles", "America/Los_Angeles")])
    ∧ (execStep (some "boom") "t" wOffsetRec =
        .ok (execStepBody (some "boom") "t" wOffsetRec)
    ∧ (stepCalls (execStepBody (some "boom") "t" wOffsetRec)).map
        (fun e => (e.start.timeZone, e.stop.timeZone)) =
      [("America/Los_Angeles", "America/Los_Angeles")]) :=
  ⟨create_fixed_timezone none "t" wOffsetRec _ _ rfl rfl rfl rfl,
   create_fixed_timezone (some "boom") "t" wOffsetRec _ _ rfl rfl rfl rfl⟩

/-- C3: for every raw oracle output text, the parsing stage decodes the
text with the fixed pre-seeded opening-brace prefix re-prepended, and fails
with the single `MalformedOutput` error — before any per-element processing
(the conclusion is the batch-level failure; no element is ever inspected on
these paths) — whenever the decode raises a syntax error, the decoded top
level has no `recommendations` field, or that field is not an array. -/
theorem parser_rejects_malformed (text : String) :
    (Json.parse ("\x7b" ++ text) = none →
       parseSuggestions text = .error malformedOutputMsg)
    ∧ (∀ j, Json.parse ("\x7b" ++ text) = some j →
        j.get? "recommendations" = none →
        parseSuggestions text = .error malformedOutputMsg)
    ∧ (∀ j recs, Json.parse ("\x7b" ++ text) = some j →
        j.get? "recommendations" = some recs → recs.isArr = false →
        parseSuggestions text = .error malformedOutputMsg) := by
  refine ⟨?_, ?_, ?_⟩
  · intro h
    simp [parseSuggestions, h]
  · intro j h hrec
    simp [parseSuggestions, h, hrec]
  · intro j recs h hrec hnarr
    simp [parseSuggestions, h, hrec, hnarr]

/-- Witness for C3 at three concrete oracle outputs: one that is not JSON
even after the prefix, one whose object lacks `recommendations`, and one
whose `recommendations` is not a sequence. -/
theorem parser_rejects_malformed_witness :
    parseSuggestions "oops" = .error malformedOutputMsg
    ∧ parseSuggestions "\"answer\": 42\x7d" = .error malformedOutputMsg
    ∧ parseSuggestions "\"recommendations\": 5\x7d" =
        .error malformedOutputMsg :=
  ⟨(parser_rejects_malformed "oops").1 rfl,
   (parser_rejects_malformed "\"answer\": 42\x7d").2.1 _ rfl rfl,
   (parser_rejects_malformed "\"recommendations\": 5\x7d").2.2 _ _ rfl rfl rfl⟩

/-- C1 (amended): the parser performs no per-element validation at all —
whatever array decodes under `recommendations` is returned unchanged, in
order, whatever each element's `priority`, `action.type` or
`start`/`end` contain; elements with unknown priority or `start == end`
therefore survive and are handed on to `executeCalendarActions`. -/
theorem parser_returns_elements_unvalidated
    (text : String) (j : Json) (recs : List Json)
    (hparse : Json.parse ("\x7b" ++ text) = some j)
    (hrecs : j.get? "recommendations" = some (.arr recs)) :
    parseSuggestions text = .ok j
    ∧ recsOf (parseSuggestions text) = some recs := by
  have hok : parseSuggestions text = .ok j := by
    simp [parseSuggestions, hparse, hrecs, Json.falsy, Json.isArr]
  exact ⟨hok, by simp [recsOf, hok, hrecs]⟩

/-- A 3-element oracle batch whose element 2 of 3 has the unknown priority
value `BANANA` (the response text as the oracle returns it, without the
pre-seeded opening brace). -/
def cexBadPriorityText : String :=
  "\"recommendations\": [\x7b\"priority\": \"HIGH\"\x7d, \x7b\"priority\": \"BANANA\"\x7d, \x7b\"priority\": \"LOW\"\x7d]\x7d"

/-- Witness for the amended C1: the batch with the unknown priority parses
to all three elements, in original order. -/
theorem parser_returns_elements_unvalidated_witness :
    recsOf (parseSuggestions cexBadPriorityText) =
      some [.obj [("priority", .str "HIGH")],
            .obj [("priority", .str "BANANA")],
            .obj [("priority", .str "LOW")]] :=
  (parser_returns_elements_unvalidated cexBadPriorityText _ _ rfl rfl).2

/-- A 1-element oracle batch whose `CREATE` recommendation has
`startTime == endTime`. -/
def cexStartEqEndText : String :=
  "\"recommendations\": [\x7b\"priority\": \"LOW\", \"calendarAction\": \x7b\"type\": \"CREATE\", \"details\": \x7b\"title\": \"T\", \"description\": \"\", \"startTime\": \"2024-01-01T07:00:00Z\", \"endTime\": \"2024-01-01T07:00:00Z\"\x7d\x7d\x7d]\x7d"

set_option maxRecDepth 8192 in
/-- C1 counterexample: the claimed per-element validation does not happen.
The batch whose element 2 of 3 has an unknown `priority` yields all three
elements (not "exactly elements 1 and 3"), the invalid element included;
and a parsed recommendation with `start == end` does reach
`executeCalendarActions`, which sends the calendar an insert whose start
and end `dateTime` are equal. -/
theorem parser_validation_counterexample :
    (recsOf (parseSuggestions cexBadPriorityText)).map List.length = some 3
    ∧ (recsOf (parseSuggestions cexBadPriorityText)).bind (fun l => l[1]?) =
        some (.obj [("priority", .str "BANANA")])
    ∧ (execCalls (executeCalendarActions (fun _ => none)
          "2024-06-01T00:00:00.000Z"
          ((recsOf (parseSuggestions cexStartEqEndText)).getD []))).map
          (fun e => (e.start.dateTime, e.stop.dateTime)) =
        [(some (.str "2024-01-01T07:00:00Z"),
          some (.str "2024-01-01T07:00:00Z"))] :=
  ⟨rfl, rfl, rfl⟩

/-- C8: building the oracle request is a pure function of the serialized
policy, the calendar events and the current instant: two runs on identical
inputs produce byte-identical request payloads (prompt text, pre-seeded
assistant prefix, model, token limit and temperature all included), and the
construction touches no state outside its inputs. -/
theorem oracle_request_deterministic
    (s1 s2 : String) (ev1 ev2 : List Json) (t1 t2 : String)
    (hs : s1 = s2) (hev : ev1 = ev2) (ht : t1 = t2) :
    buildRequest s1 ev1 t1 = buildRequest s2 ev2 t2 := by
  subst hs
  subst hev
  subst ht
  rfl

/-- An existing calendar event used by the C8 and C9 witnesses. -/
def wStandupEvent : Json :=
  .obj [("summary", .str "Standup"),
        ("start", .obj [("dateTime", .str "2024-06-01T10:00:00Z")]),
        ("end", .obj [("dateTime", .str "2024-06-01T10:30:00Z")])]

/-- Witness for C8 at a concrete policy, snapshot and instant. -/
theorem oracle_request_deterministic_witness :
    buildRequest "recurring_events:\n  - Book Club\n" [wStandupEvent]
        "2024-06-01T00:00:00.000Z" =
      buildRequest "recurring_events:\n  - Book Club\n" [wStandupEvent]
        "2024-06-01T00:00:00.000Z" :=
  oracle_request_deterministic _ _ _ _ _ _ rfl rfl rfl

/-- C9 (amended): the snapshot handed to the request builder covers the
fixed window from 30 days back to 7 days ahead of now, and is the calendar
read's event list passed through one-for-one, in order, formatted to
(summary, start, end) — with NO deduplication: every returned event,
duplicates included, reaches the serialized snapshot. -/
theorem snapshot_window_and_passthrough (nowMs : Int) (events : List Json) :
    (calendarQuery nowMs).timeMin = nowMs - 2592000000
    ∧ (calendarQuery nowMs).timeMax = nowMs + 604800000
    ∧ (calendarQuery nowMs).calendarId = "primary"
    ∧ getCalendarEvents nowMs (fun _ => .ok events) = .ok events
    ∧ (formatEvents events).length = events.length
    ∧ ∀ j : Nat, (formatEvents events)[j]? = events[j]?.map formatEvent := by
  refine ⟨by norm_num [calendarQuery], by norm_num [calendarQuery], rfl, rfl,
    by simp [formatEvents], fun j => by simp [formatEvents]⟩

/-- The normalized form of `wStandupEvent`. -/
def wStandupFormatted : FormattedEvent :=
  { summary := some (.str "Standup")
    start := some (.str "2024-06-01T10:00:00Z")
    stop := some (.str "2024-06-01T10:30:00Z") }

/-- C9 counterexample: the snapshot is not deduplicated by
(title, start, end).  A calendar read returning the same event twice yields
a snapshot with the identical (summary, start, end) triple twice, and the
serialized snapshot embedded in the oracle request contains the duplicate
verbatim. -/
theorem snapshot_not_deduplicated :
    formatEvents [wStandupEvent, wStandupEvent] =
      [wStandupFormatted, wStandupFormatted]
    ∧ stringifyFormattedEvents [wStandupEvent, wStandupEvent] =
      "[\n  \x7b\n    \"summary\": \"Standup\",\n    \"start\": \"2024-06-01T10:00:00Z\",\n    \"end\": \"2024-06-01T10:30:00Z\"\n  \x7d,\n  \x7b\n    \"summary\": \"Standup\",\n    \"start\": \"2024-06-01T10:00:00Z\",\n    \"end\": \"2024-06-01T10:30:00Z\"\n  \x7d\n]" :=
  ⟨rfl, rfl⟩

/-- A run environment whose only configuration defect is the missing
`ANTHROPIC_API_KEY`; every collaborator behaves. -/
def envMissingKey : Env :=
  { strategyYaml := some "version: 1.1\n"
    credentialsExist := true
    anthropicKey := none
    nowMs := 1717200000000
    nowIso := "2024-06-01T00:00:00.000Z"
    listEvents := fun _ => .ok []
    oracle := fun _ => .ok "\"recommendations\": []\x7d"
    userConfirms := true
    insertCap := fun _ => none }

/-- C7 counterexample: with `ANTHROPIC_API_KEY` missing, the run does abort
with the configuration error — but only after the calendar read has been
made: the trace of external calls at the abort is `[calendarRead]`, not
`[]`, because `main` fetches events before `getSchedulingSuggestions`
checks the key.  So the abort is not "before any external call". -/
theorem missing_key_aborts_after_calendar_read :
    runMain envMissingKey =
      ([.calendarRead],
       .error "ANTHROPIC_API_KEY not found in environment variables")
    ∧ (runMain envMissingKey).1 ≠ [] :=
  ⟨rfl, by decide⟩

/-- C7 (amended): a missing policy file or missing `credentials.json`
aborts the run before any external call; a missing (or empty)
`ANTHROPIC_API_KEY` aborts before the oracle call and before any calendar
write, but only after the calendar read has already happened. -/
theorem configuration_abort_points (env : Env) :
    (env.strategyYaml = none → (runMain env).1 = [])
    ∧ (env.credentialsExist = false → (runMain env).1 = [])
    ∧ (keyMissing env.anthropicKey = true →
        ExtCall.oracleCall ∉ (runMain env).1
        ∧ ExtCall.calendarWrite ∉ (runMain env).1) := by
  refine ⟨?_, ?_, ?_⟩
  · intro h
    simp [runMain, h]
  · intro h
    cases hs : env.strategyYaml with
    | none => simp [runMain, hs]
    | some s => simp [runMain, hs, h]
  · intro h
    cases hs : env.strategyYaml with
    | none => simp [runMain, hs]
    | some s =>
      by_cases hc : env.credentialsExist
      · cases hl : env.listEvents (calendarQuery env.nowMs) with
        | error e => simp [runMain, hs, hc, hl]
        | ok evs => simp [runMain, hs, hc, hl, h]
      · simp [runMain, hs, hc]

/-- The environment with `credentials.json` absent (key present). -/
def envNoCreds : Env :=
  { envMissingKey with credentialsExist := false, anthropicKey := some "k" }

/-- The environment with the policy file absent (key present). -/
def envNoStrategy : Env :=
  { envMissingKey with strategyYaml := none, anthropicKey := some "k" }

/-- Witness for the amended C7 at three concrete environments. -/
theorem configuration_abort_points_witness :
    (runMain envNoStrategy).1 = []
    ∧ (runMain envNoCreds).1 = []
    ∧ (ExtCall.oracleCall ∉ (runMain envMissingKey).1
       ∧ ExtCall.calendarWrite ∉ (runMain envMissingKey).1) :=
  ⟨(configuration_abort_points envNoStrategy).1 rfl,
   (configuration_abort_points envNoCreds).2.1 rfl,
   (configuration_abort_points envMissingKey).2.2 rfl⟩
